import Mathlib

/-!
Shallow embedding of the synthetic-shadow core of the `lwc` repository:
the rendered-text (innerText) engine, the traversal filtering behind the
patched `querySelector` / `querySelectorAll` family, and the focus
delegation controller (`tabIndex` setter, `focus()`, `blur()`).

Sources embedded here:
- `src/packages/@lwc/synthetic-shadow/src/3rdparty/inner-text.ts`
- `src/packages/@lwc/synthetic-shadow/src/faux-shadow/element.ts`
- `src/unnamed/part_001` (focus/blur/tabIndex patches and the sibling
  innerText implementation)

Browser-environment facts (computed styles, native getters, the Selection
object, listener registration) are represented as explicit data so that
every function is executable.
-/

namespace Lwc

/-- Computed style of an element, restricted to the two properties the
source consults (`visibility` and `display`). -/
structure ComputedStyle where
  visibility : String
  display : String
deriving DecidableEq, Repr

/-- `nodeIsBeingRendered` as defined in
`src/packages/@lwc/synthetic-shadow/src/3rdparty/inner-text.ts`
(lines 37-39, identical in `src/unnamed/part_001` lines 162-164 and
`src/unnamed/part_002`):
`visibility === 'visible' && display !== 'none'`. -/
def nodeIsBeingRendered (s : ComputedStyle) : Bool :=
  s.visibility == "visible" && s.display != "none"

/-- `nodeIsBeingRendered` as defined in
`src/packages/@lwc/synthetic-shadow/src/faux-shadow/element.ts`
(lines 90-92): `visibility !== 'hidden' && display !== 'none'`. -/
def nodeIsBeingRenderedElementTs (s : ComputedStyle) : Bool :=
  s.visibility != "hidden" && s.display != "none"

/-- C9: The two sibling implementations of the not-rendered visibility
predicate contradict each other: on the computed style
`visibility: collapse; display: block` the `element.ts` predicate
(`visibility !== 'hidden' && display !== 'none'`) returns `true` while the
`inner-text.ts` predicate (`visibility === 'visible' && display !== 'none'`)
returns `false`, so the two `nodeIsBeingRendered` functions are not
extensionally equal. -/
theorem nodeIsBeingRendered_implementations_disagree :
    nodeIsBeingRenderedElementTs ⟨"collapse", "block"⟩ = true ∧
    nodeIsBeingRendered ⟨"collapse", "block"⟩ = false ∧
    nodeIsBeingRenderedElementTs ≠ nodeIsBeingRendered := by
  refine ⟨by decide, by decide, fun h => ?_⟩
  have := congrFun h ⟨"collapse", "block"⟩
  simp [nodeIsBeingRendered, nodeIsBeingRenderedElementTs] at this

/-! ## The innerText item sequences

`inner-text.ts` collects, per node, a list of items that are either literal
strings or "required line break count" integers
(`type InnerTextItem = string | number`). -/

/-- An item of the inner-text collection: a literal string or a required
line break count. -/
inductive InnerTextItem where
  | str (s : String)
  | brk (n : Nat)
deriving DecidableEq, Repr

/-- `typeof item === 'number'` on an `InnerTextItem`. -/
def InnerTextItem.isBreak : InnerTextItem → Bool
  | .brk _ => true
  | .str _ => false

/-- The break count of a break item (`0` for strings; only applied to
break items). -/
def InnerTextItem.breakCount : InnerTextItem → Nat
  | .brk n => n
  | .str _ => 0

/-- The keep-predicate of step 4 of `getInnerText`
(`inner-text.ts` line 210):
`typeof result === 'number' || result.length > 0`. -/
def InnerTextItem.keep : InnerTextItem → Bool
  | .brk _ => true
  | .str s => s.length > 0

/-- Step 5, trailing part, of `getInnerText` (`inner-text.ts` line 219):
`while (typeof results[end] === 'number' && end > start) end--`.
After the leading trim the element at index `start` (if any) is a string,
so the loop removes exactly the maximal trailing run of break counts. -/
def trimTrailingBreaks (l : List InnerTextItem) : List InnerTextItem :=
  (l.reverse.dropWhile InnerTextItem.isBreak).reverse

/-- The string emitted for a finished break run whose running maximum is
`m` (`inner-text.ts` line 233): `maxInSequence === 1 ? '\n' : '\n\n'`. -/
def breakRunString (m : Nat) : String :=
  if m = 1 then "\n" else "\n\n"

/-- Step 6 of `getInnerText` (`inner-text.ts` lines 222-239): the loop that
walks the trimmed window, replaces each maximal run of consecutive break
counts by the string `breakRunString` of the run's `Math.max`-folded
`maxInSequence`, and concatenates string items in order. The accumulator
`pending` is the running `maxInSequence` of the break run currently being
scanned by the inner `while` loop (`none` when not inside a run); the
emitted text is identical to the source loop's, which flushes the run
string as soon as the run ends. -/
def replaceBreakRunsGo (pending : Option Nat) : List InnerTextItem → String
  | [] =>
    match pending with
    | none => ""
    | some m => breakRunString m
  | .str s :: rest =>
    (match pending with
     | none => ""
     | some m => breakRunString m) ++ s ++ replaceBreakRunsGo none rest
  | .brk k :: rest =>
    replaceBreakRunsGo
      (some (match pending with
             | none => k
             | some m => max m k)) rest

/-- Step 6 of `getInnerText`, entry point: scan starts outside a run. -/
def replaceBreakRuns (l : List InnerTextItem) : String :=
  replaceBreakRunsGo none l

/-- Steps 4-7 of `getInnerText`
(`inner-text.ts` lines 209-242, identically `src/unnamed/part_001` lines
344-377): drop empty strings, trim the leading and trailing runs of break
counts (the two index-moving `while` loops over `start`/`end`), then run
the break-run replacement loop over the remaining window. -/
def getInnerTextPostProcess (results : List InnerTextItem) : String :=
  let results := results.filter InnerTextItem.keep
  let results := results.dropWhile InnerTextItem.isBreak
  let results := trimTrailingBreaks results
  replaceBreakRuns results

/-- `true` when a break item carries a positive count (break items are
documented as "a positive integer (a required line break count)" in the
source comments); string items satisfy it vacuously. -/
def InnerTextItem.posBreak : InnerTextItem → Bool
  | .brk n => decide (1 ≤ n)
  | .str _ => true

/-- The string the specification assigns to a whole break run: `"\n\n"`
when the maximum of the run's counts is at least 2, `"\n"` when it is 1
(spec wording: max of the run, not the sum). -/
def specRunString (run : List Nat) : String :=
  if 2 ≤ run.foldr max 0 then "\n\n" else "\n"

/-- Replacement of break runs following the specification's wording:
each maximal run of consecutive break-count markers is replaced, as a
whole, by the string determined by the maximum of the run; string items
are concatenated in order. Stated independently of the source's
index-walking loop, to be compared with `replaceBreakRuns`. -/
def specReplaceRuns : List InnerTextItem → String
  | [] => ""
  | .str s :: rest => s ++ specReplaceRuns rest
  | .brk n :: rest =>
    specRunString (n :: (rest.takeWhile InnerTextItem.isBreak).map InnerTextItem.breakCount)
      ++ specReplaceRuns (rest.dropWhile InnerTextItem.isBreak)
termination_by l => l.length
decreasing_by
  · simp
  · exact Nat.lt_succ_of_le (rest.dropWhile_sublist _).length_le

/-- The innerText post-processing as described by the specification:
drop empty strings, remove every leading and trailing run of break-count
markers, replace each remaining interior run by `"\n"`/`"\n\n"` according
to the run's maximum, concatenate the surviving strings in order. -/
def specPostProcess (items : List InnerTextItem) : String :=
  specReplaceRuns
    (trimTrailingBreaks ((items.filter InnerTextItem.keep).dropWhile InnerTextItem.isBreak))

theorem breakRunString_eq_specRunString_single (m : Nat) (hm : 1 ≤ m) :
    breakRunString m = specRunString [m] := by
  unfold breakRunString specRunString
  by_cases h : m = 1
  · subst h; norm_num
  · have h2 : 2 ≤ m := by omega
    simp [h, h2]

theorem specRunString_cons_max (m k : Nat) (xs : List Nat) :
    specRunString (max m k :: xs) = specRunString (m :: k :: xs) := by
  simp [specRunString, Nat.max_assoc]

theorem replaceBreakRunsGo_spec (l : List InnerTextItem)
    (hl : ∀ it ∈ l, it.posBreak = true) :
    replaceBreakRunsGo none l = specReplaceRuns l ∧
    ∀ m, 1 ≤ m →
      replaceBreakRunsGo (some m) l =
        specRunString (m :: (l.takeWhile InnerTextItem.isBreak).map InnerTextItem.breakCount)
          ++ specReplaceRuns (l.dropWhile InnerTextItem.isBreak) := by
  induction l with
  | nil =>
    refine ⟨by simp [replaceBreakRunsGo, specReplaceRuns], fun m hm => ?_⟩
    simp [replaceBreakRunsGo, specReplaceRuns,
      breakRunString_eq_specRunString_single m hm]
  | cons x rest ih =>
    have hrest : ∀ it ∈ rest, it.posBreak = true :=
      fun it h => hl it (List.mem_cons_of_mem _ h)
    obtain ⟨ih1, ih2⟩ := ih hrest
    cases x with
    | str s =>
      refine ⟨?_, fun m hm => ?_⟩
      · simp [replaceBreakRunsGo, specReplaceRuns, ih1]
      · simp [replaceBreakRunsGo, specReplaceRuns, List.takeWhile, List.dropWhile,
          InnerTextItem.isBreak, ih1,
          breakRunString_eq_specRunString_single m hm, String.append_assoc]
    | brk n =>
      have hn : 1 ≤ n := by
        have := hl (.brk n) (List.mem_cons_self _ _)
        simpa [InnerTextItem.posBreak] using this
      refine ⟨?_, fun m hm => ?_⟩
      · rw [show replaceBreakRunsGo none (.brk n :: rest)
              = replaceBreakRunsGo (some n) rest from rfl]
        rw [ih2 n hn]
        simp [specReplaceRuns, InnerTextItem.breakCount]
      · rw [show replaceBreakRunsGo (some m) (.brk n :: rest)
              = replaceBreakRunsGo (some (max m n)) rest from rfl]
        rw [ih2 (max m n) (le_trans hm (Nat.le_max_left m n))]
        rw [specRunString_cons_max]
        simp [List.takeWhile, List.dropWhile, InnerTextItem.isBreak,
          InnerTextItem.breakCount]

theorem posBreak_preserved (items : List InnerTextItem)
    (h : ∀ it ∈ items, it.posBreak = true) :
    ∀ it ∈ trimTrailingBreaks
        ((items.filter InnerTextItem.keep).dropWhile InnerTextItem.isBreak),
      it.posBreak = true := by
  intro it hit
  apply h
  unfold trimTrailingBreaks at hit
  rw [List.mem_reverse] at hit
  have h1 := (List.dropWhile_sublist (l :=
      ((items.filter InnerTextItem.keep).dropWhile InnerTextItem.isBreak).reverse)
      (p := InnerTextItem.isBreak)).mem hit
  rw [List.mem_reverse] at h1
  have h2 := (List.dropWhile_sublist (l := items.filter InnerTextItem.keep)
      (p := InnerTextItem.isBreak)).mem h1
  exact (List.mem_filter.mp h2).1

/-! ## The inner text collection steps (`innerTextCollectionSteps`)

A DOM node as consumed by the collection steps: an element carries its tag
name, its computed style, the value of the native `innerText` getter
(consulted only for `<option>`), and its (filtered) child nodes; a text
node carries the string that the Selection-based measurement
(`getTextNodeInnerText`) produces for it; any other node kind (comments,
etc.) contributes nothing. -/
inductive DomNode where
  | element (tagName : String) (style : ComputedStyle)
      (nativeInnerText : String) (children : List DomNode)
  | text (rendered : String)
  | other
deriving Repr

mutual

/-- `innerTextCollectionSteps` from
`src/packages/@lwc/synthetic-shadow/src/3rdparty/inner-text.ts`
lines 126-183 (identically `src/unnamed/part_001` lines 252-318):
`<option>` short-circuits to `[1, nativeInnerText, 1]`, `<textarea>` to
`[]`; otherwise the children's items are collected first; a node that is
not being rendered returns `[]` when it is a `<select>`/`<datalist>` and
the collected child items otherwise; rendered nodes then append/wrap the
`<br>`, `table-cell`, `table-row`, `<p>` and block/`table-caption`
markers in source order. -/
def innerTextCollectionSteps : DomNode → List InnerTextItem
  | .text rendered => [.str rendered]
  | .other => []
  | .element tagName style nativeInnerText children =>
    if tagName == "OPTION" then
      [.brk 1, .str nativeInnerText, .brk 1]
    else if tagName == "TEXTAREA" then
      []
    else
      let items := innerTextCollectionList children
      if !nodeIsBeingRendered style then
        if tagName == "SELECT" || tagName == "DATALIST" then [] else items
      else
        let items := if tagName == "BR" then items ++ [.str "\n"] else items
        let items := if style.display == "table-cell" then items ++ [.str "\t"] else items
        let items := if style.display == "table-row" then items ++ [.str "\n"] else items
        let items := if tagName == "P" then .brk 2 :: items ++ [.brk 2] else items
        if style.display == "block" || style.display == "table-caption" then
          .brk 1 :: items ++ [.brk 1]
        else items

/-- The child loop of `innerTextCollectionSteps` (`for` over `childNodes`
with `ArrayPush.apply`): concatenation of the items of each child in
order. -/
def innerTextCollectionList : List DomNode → List InnerTextItem
  | [] => []
  | c :: cs => innerTextCollectionSteps c ++ innerTextCollectionList cs

end

/-- C3: The innerText post-processing of the flat item sequence drops
empty strings, removes every leading and trailing run of break-count
markers, replaces each remaining interior run of consecutive break-count
markers with `"\n"` when the maximum count in the run is 1 and with
`"\n\n"` when it is at least 2 (maximum of the run, not the sum), and
concatenates the surviving string items in order (for item sequences
whose break counts are positive, as the collection steps produce); in
particular `[1, "first text", 1, 1, "second text", 1]` yields exactly
`"first text\nsecond text"`. -/
theorem innerText_post_processing_correct :
    (∀ items : List InnerTextItem, (∀ it ∈ items, it.posBreak = true) →
        getInnerTextPostProcess items = specPostProcess items) ∧
    getInnerTextPostProcess
        [.brk 1, .str "first text", .brk 1, .brk 1, .str "second text", .brk 1]
      = "first text\nsecond text" := by
  constructor
  · intro items h
    unfold getInnerTextPostProcess specPostProcess replaceBreakRuns
    exact (replaceBreakRunsGo_spec _ (posBreak_preserved items h)).1
  · decide

/-- Witness for C3 at a concrete item sequence with an interior run. -/
theorem innerText_post_processing_correct_witness :
    (∀ it ∈ ([.str "a", .brk 1, .brk 2, .str "b", .brk 1]
        : List InnerTextItem), it.posBreak = true) ∧
    getInnerTextPostProcess [.str "a", .brk 1, .brk 2, .str "b", .brk 1]
      = specPostProcess [.str "a", .brk 1, .brk 2, .str "b", .brk 1] :=
  ⟨by decide, innerText_post_processing_correct.1 _ (by decide)⟩

/-- C6: In the inner-text collection steps, an `OPTION` element returns
exactly `[1, nativeInnerText, 1]` without descending into its children
(the result does not depend on the children at all); a `TEXTAREA` element
contributes the empty list; a `SELECT` or `DATALIST` element that is not
being rendered contributes the empty list, discarding even the items
already collected from its descendants; and any other non-rendered
element still returns the items collected from its children. -/
theorem innerTextCollectionSteps_special_cases :
    (∀ (style : ComputedStyle) (native : String) (children : List DomNode),
        innerTextCollectionSteps (.element "OPTION" style native children)
          = [.brk 1, .str native, .brk 1]) ∧
    (∀ (style : ComputedStyle) (native : String) (children : List DomNode),
        innerTextCollectionSteps (.element "TEXTAREA" style native children) = []) ∧
    (∀ (style : ComputedStyle) (native : String) (children : List DomNode),
        nodeIsBeingRendered style = false →
        innerTextCollectionSteps (.element "SELECT" style native children) = [] ∧
        innerTextCollectionSteps (.element "DATALIST" style native children) = []) ∧
    (∀ (tagName : String) (style : ComputedStyle) (native : String)
        (children : List DomNode),
        tagName ≠ "OPTION" → tagName ≠ "TEXTAREA" →
        tagName ≠ "SELECT" → tagName ≠ "DATALIST" →
        nodeIsBeingRendered style = false →
        innerTextCollectionSteps (.element tagName style native children)
          = innerTextCollectionList children) := by
  refine ⟨fun style native children => ?_, fun style native children => ?_,
    fun style native children h => ⟨?_, ?_⟩,
    fun tagName style native children h1 h2 h3 h4 h5 => ?_⟩
  · simp [innerTextCollectionSteps]
  · simp [innerTextCollectionSteps]
  · simp [innerTextCollectionSteps, h]
  · simp [innerTextCollectionSteps, h]
  · simp [innerTextCollectionSteps, h1, h2, h3, h4, h5]

/-- Witness for C6 at concrete nodes: a hidden `SELECT` discards its
descendants' items, while a hidden `DIV` keeps them. -/
theorem innerTextCollectionSteps_special_cases_witness :
    innerTextCollectionSteps
        (.element "SELECT" ⟨"hidden", "block"⟩ "" [.text "x"]) = [] ∧
    innerTextCollectionSteps
        (.element "DIV" ⟨"hidden", "block"⟩ "" [.text "x"])
      = innerTextCollectionList [.text "x"] :=
  ⟨(innerTextCollectionSteps_special_cases.2.2.1 ⟨"hidden", "block"⟩ ""
      [.text "x"] (by decide)).1,
   innerTextCollectionSteps_special_cases.2.2.2 "DIV" ⟨"hidden", "block"⟩ ""
      [.text "x"] (by decide) (by decide) (by decide) (by decide) (by decide)⟩

/-! ## Selection save/neutralize/restore around `getInnerText` (C1)

`getInnerText` (`inner-text.ts` lines 188-243, identically
`innerTextPatched` in `src/unnamed/part_001` lines 323-378) snapshots the
owning window's Selection state and `onselect*` handlers, nulls the
handlers, runs the collection loop, and then calls
`restoreSelectionState`. Handlers and ranges are abstracted to numeric
identifiers; `hasSelection` models `windowGetSelection` returning a
Selection versus `null`. -/

/-- The mutable window state touched by the computation: the three
`onselect*` handlers, whether `getSelection()` yields a Selection, and
the selection's ranges. -/
structure Win where
  onselect : Option Nat
  onselectstart : Option Nat
  onselectionchange : Option Nat
  hasSelection : Bool
  ranges : List Nat
deriving DecidableEq, Repr

/-- The `SelectionState` snapshot captured by `getSelectionState`
(`inner-text.ts` lines 17-23). -/
structure SelectionState where
  onselect : Option Nat
  onselectstart : Option Nat
  onselectionchange : Option Nat
  ranges : List Nat
deriving DecidableEq, Repr

/-- `getSelectionState` (`inner-text.ts` lines 41-67): returns `null` and
leaves the window untouched when there is no Selection; otherwise
snapshots the handlers and ranges and nulls the three handlers. -/
def getSelectionState (w : Win) : Option SelectionState × Win :=
  if w.hasSelection then
    (some ⟨w.onselect, w.onselectstart, w.onselectionchange, w.ranges⟩,
     { w with onselect := none, onselectstart := none, onselectionchange := none })
  else
    (none, w)

/-- `restoreSelectionState` (`inner-text.ts` lines 69-87): a `null` state
restores nothing; otherwise the saved ranges replace the current ones
(`removeAllRanges` followed by `addRange` of each saved range) and the
three handlers are written back. -/
def restoreSelectionState (st : Option SelectionState) (w : Win) : Win :=
  match st with
  | none => w
  | some st =>
    { w with
      ranges := st.ranges
      onselect := st.onselect
      onselectstart := st.onselectstart
      onselectionchange := st.onselectionchange }

/-- Outcome of the inner-text collection loop (step 3 of `getInnerText`):
either the collected items together with the selection ranges as the
loop's `getTextNodeInnerText` calls left them (that helper mutates the
selection and deliberately does not restore it), or an exception raised
somewhere inside the loop, again with the ranges as mutated up to that
point. -/
inductive CollectOutcome where
  | ok (items : List InnerTextItem) (rangesAfter : List Nat)
  | threw (rangesAfter : List Nat)
deriving DecidableEq, Repr

/-- Range mutation performed by the collection loop: the Selection's
ranges can only change when a Selection exists. -/
def applyCollectRanges (w : Win) (r : List Nat) : Win :=
  if w.hasSelection then { w with ranges := r } else w

/-- `getInnerText` (`inner-text.ts` lines 188-243) restricted to its
effect on the window state, with the collection loop's outcome supplied
as data: if the element is not being rendered the function returns the
descendant text content before any selection state is captured; otherwise
the selection state is captured and neutralized, the collection loop runs
(possibly raising), and — only on the non-raising path, since the source
has no `try`/`finally` — `restoreSelectionState` runs before the
post-processed string is returned. An exception propagates to the caller
with the window left as the loop left it. -/
def getInnerTextRun (rendered : Bool) (textContent : String)
    (collect : CollectOutcome) (w : Win) : Except Unit String × Win :=
  if !rendered then
    (.ok textContent, w)
  else
    let res := getSelectionState w
    let st := res.1
    let w1 := res.2
    match collect with
    | .threw r => (.error (), applyCollectRanges w1 r)
    | .ok items r =>
      let w2 := applyCollectRanges w1 r
      let w3 := restoreSelectionState st w2
      (.ok (getInnerTextPostProcess items), w3)

/-- C1 counterexample: the claim that the window's selection ranges and
`onselect*` handlers are restored on *every* exit path, including when the
collection steps raise, is false: `getInnerText` has no `try`/`finally`,
so on a window with an `onselect` handler and a live selection, a raising
collection loop leaves the handlers nulled — the final window state
differs from the pre-call state. -/
theorem getInnerText_selection_not_restored_on_throw :
    (getInnerTextRun true "" (.threw [])
        ⟨some 0, none, none, true, []⟩).2
      ≠ ⟨some 0, none, none, true, []⟩ := by decide

/-- C1 as amended: the selection ranges and handlers are restored to
their pre-call values on every exit path on which the collection loop
completes without raising — including the early-return path for a
non-rendered element (which captures nothing) and the no-Selection path —
regardless of how the loop mutated the selection; but when the collection
loop raises, the exception propagates with the handlers still nulled. -/
theorem getInnerText_selection_restored_on_normal_exit :
    (∀ (rendered : Bool) (tc : String) (items : List InnerTextItem)
        (r : List Nat) (w : Win),
        (getInnerTextRun rendered tc (.ok items r) w).2 = w) ∧
    (∀ (tc : String) (r : List Nat) (w : Win), w.hasSelection = true →
        (getInnerTextRun true tc (.threw r) w).2.onselect = none) := by
  constructor
  · intro rendered tc items r w
    cases rendered with
    | false => simp [getInnerTextRun]
    | true =>
      rcases w with ⟨os, oss, osc, hs, rg⟩
      cases hs with
      | false => simp [getInnerTextRun, getSelectionState, applyCollectRanges,
          restoreSelectionState]
      | true => simp [getInnerTextRun, getSelectionState, applyCollectRanges,
          restoreSelectionState]
  · intro tc r w h
    rcases w with ⟨os, oss, osc, hs, rg⟩
    cases hs with
    | false => simp at h
    | true => simp [getInnerTextRun, getSelectionState, applyCollectRanges]

/-- Witness for the amended C1 at a concrete window state. -/
theorem getInnerText_selection_restored_on_normal_exit_witness :
    (getInnerTextRun true "t" (.ok [.str "x"] [7])
        ⟨some 1, some 2, some 3, true, [4]⟩).2
      = ⟨some 1, some 2, some 3, true, [4]⟩ ∧
    ((⟨some 1, some 2, some 3, true, [4]⟩ : Win).hasSelection = true ∧
      (getInnerTextRun true "t" (.threw [7])
        ⟨some 1, some 2, some 3, true, [4]⟩).2.onselect = none) :=
  ⟨getInnerText_selection_restored_on_normal_exit.1 true "t" [.str "x"] [7] _,
   ⟨by decide,
    getInnerText_selection_restored_on_normal_exit.2 "t" [7] _ (by decide)⟩⟩

/-! ## Focus delegation controller (`src/unnamed/part_001`)

The helpers imported from `./focus` (`disableKeyboardFocusNavigationRoutines`,
`enableKeyboardFocusNavigationRoutines`, `hostElementFocus`, `handleFocus`,
`handleFocusIn`, `ignoreFocus`, `ignoreFocusIn`, `getActiveElement`) and
the native descriptors from `../env/element` are not part of the provided
sources; they are modelled from the spec below. -/

/-- State relevant to the patched `focus()`: the keyboard sequential
navigation handling flag, plus effect markers recording where focus was
sent. -/
structure FocusState where
  navRoutinesEnabled : Bool
  shadowFocused : Bool
  nativeFocused : Bool
deriving DecidableEq, Repr

/-- Modelled from the spec: `disableKeyboardFocusNavigationRoutines`
("keyboard-driven sequential navigation handling must be disabled for the
duration of the call") — clears the enabled flag. The function lives in
`./focus`, which is not among the provided sources. -/
def disableKeyboardFocusNavigationRoutines (s : FocusState) : FocusState :=
  { s with navRoutinesEnabled := false }

/-- Modelled from the spec: `enableKeyboardFocusNavigationRoutines`
("re-enabled immediately after") — sets the enabled flag. The function
lives in `./focus`, which is not among the provided sources. -/
def enableKeyboardFocusNavigationRoutines (s : FocusState) : FocusState :=
  { s with navRoutinesEnabled := true }

/-- Modelled from the spec: `hostElementFocus` "retarget[s] the call into
the shadow's internal focus routine instead of focusing the host
directly"; the spec attributes no effect on the navigation-routines flag
to it. The function lives in `./focus`, which is not among the provided
sources. -/
def hostElementFocus (s : FocusState) : FocusState :=
  { s with shadowFocused := true }

/-- The native `HTMLElement.prototype.focus`, as an effect marker. -/
def nativeFocus (s : FocusState) : FocusState :=
  { s with nativeFocused := true }

/-- `focusPatched` (`src/unnamed/part_001` lines 130-143): disable the
keyboard navigation routines; if the element is a host that delegates
focus, retarget into the shadow and `return` — the re-enable call at the
end of the function is *not* executed on this path; otherwise apply the
native focus and re-enable. -/
def focusPatched (isHost delegatesFocus : Bool) (s : FocusState) : FocusState :=
  let s := disableKeyboardFocusNavigationRoutines s
  if isHost && delegatesFocus then
    hostElementFocus s
  else
    enableKeyboardFocusNavigationRoutines (nativeFocus s)

/-- C7 counterexample: the claim that keyboard-driven sequential
navigation handling is re-enabled before `focus()` returns on every path,
in particular on the delegating-host retarget path, is false: on a host
element that delegates focus, `focusPatched` returns right after
`hostElementFocus` and leaves the routines disabled, so the post-call
enabled state (`false`) differs from the pre-call state (`true`). -/
theorem focusPatched_leaves_navigation_disabled_on_delegating_path :
    (focusPatched true true ⟨true, false, false⟩).navRoutinesEnabled = false ∧
    (⟨true, false, false⟩ : FocusState).navRoutinesEnabled = true := by decide

/-- C7 as amended: `focusPatched` disables the navigation routines at
entry on every path; on every path other than the delegating-host
retarget (where the call is forwarded to native focus) they are
unconditionally re-enabled before return; on the delegating-host retarget
path the function returns with the routines still disabled, because the
early `return` skips the re-enable call. -/
theorem focusPatched_navigation_bracket :
    (∀ (isHost delegatesFocus : Bool) (s : FocusState),
        (isHost && delegatesFocus) = false →
        (focusPatched isHost delegatesFocus s).navRoutinesEnabled = true) ∧
    (∀ s : FocusState,
        (focusPatched true true s).navRoutinesEnabled = false) := by
  constructor
  · intro isHost delegatesFocus s h
    simp [focusPatched, h, disableKeyboardFocusNavigationRoutines,
      enableKeyboardFocusNavigationRoutines, nativeFocus]
  · intro s
    simp [focusPatched, disableKeyboardFocusNavigationRoutines, hostElementFocus]

/-- Witness for the amended C7 at concrete states. -/
theorem focusPatched_navigation_bracket_witness :
    ((false && true) = false ∧
      (focusPatched false true ⟨false, false, false⟩).navRoutinesEnabled = true) ∧
    (focusPatched true true ⟨true, false, false⟩).navRoutinesEnabled = false :=
  ⟨⟨by decide, focusPatched_navigation_bracket.1 false true _ (by decide)⟩,
   focusPatched_navigation_bracket.2 ⟨true, false, false⟩⟩

/-- A host element as seen by the patched `tabIndex` setter: the reflected
`tabindex` content attribute and the two internal listener registrations.
`focusInListener` is the "skip this element in keyboard sequential
navigation" registration (`handleFocusIn`), `focusListener` the "redirect
focus into the shadow" registration (`handleFocus`). -/
structure HostElm where
  tabindexAttr : Option Int
  focusInListener : Bool
  focusListener : Bool
deriving DecidableEq, Repr

/-- Modelled from the spec: the native `tabIndex` getter
(`tabIndexGetter` from `../env/element`, not among the provided sources)
reflects the `tabindex` attribute, with default `-1` for a generic
(non-natively-focusable) element. -/
def nativeTabIndexGetter (e : HostElm) : Int :=
  e.tabindexAttr.getD (-1)

/-- The native `hasAttribute('tabindex')` check. -/
def nativeHasTabindexAttr (e : HostElm) : Bool :=
  e.tabindexAttr.isSome

/-- Modelled from the spec: the native `tabIndex` setter
(`tabIndexSetter` from `../env/element`, not among the provided sources)
reflects the assigned value into the `tabindex` attribute. -/
def nativeTabIndexSetter (value : Int) (e : HostElm) : HostElm :=
  { e with tabindexAttr := some value }

/-- Modelled from the spec: `handleFocusIn` registers the skip-navigation
listener; registration is idempotent (DOM `addEventListener` semantics).
The function lives in `./focus`, which is not among the provided
sources. -/
def handleFocusIn (e : HostElm) : HostElm :=
  { e with focusInListener := true }

/-- Modelled from the spec: `ignoreFocusIn` removes the skip-navigation
listener. -/
def ignoreFocusIn (e : HostElm) : HostElm :=
  { e with focusInListener := false }

/-- Modelled from the spec: `handleFocus` registers the focus-delegating
listener. -/
def handleFocus (e : HostElm) : HostElm :=
  { e with focusListener := true }

/-- Modelled from the spec: `ignoreFocus` removes the focus-delegating
listener. -/
def ignoreFocus (e : HostElm) : HostElm :=
  { e with focusListener := false }

/-- `tabIndexSetterPatched` (`src/unnamed/part_001` lines 51-113):
records value and attribute presence before and after the native setter
call, removes the stale listener registrations when the attribute was
previously rendered and the value changed (or the attribute disappeared),
returns early when no attribute is rendered afterwards or when nothing
changed, and finally adds the listener matching the new value
(`-1` → skip-navigation, `0` with `delegatesFocus` → focus-delegating). -/
def tabIndexSetterPatched (delegatesFocus : Bool) (value : Int) (e : HostElm) :
    HostElm :=
  let prevValue := nativeTabIndexGetter e
  let prevHasAttr := nativeHasTabindexAttr e
  let e := nativeTabIndexSetter value e
  let currValue := nativeTabIndexGetter e
  let currHasAttr := nativeHasTabindexAttr e
  let didValueChange := prevValue != currValue
  let e :=
    if prevHasAttr && (didValueChange || !currHasAttr) then
      let e := if prevValue == -1 then ignoreFocusIn e else e
      if prevValue == 0 && delegatesFocus then ignoreFocus e else e
    else e
  if !currHasAttr then
    e
  else if prevHasAttr && currHasAttr && !didValueChange then
    e
  else
    let e := if currValue == -1 then handleFocusIn e else e
    if currValue == 0 && delegatesFocus then handleFocus e else e

theorem tabIndexSetterPatched_attr (d : Bool) (v : Int) (e : HostElm) :
    (tabIndexSetterPatched d v e).tabindexAttr = some v := by
  rcases e with ⟨attr, fi, f⟩
  unfold tabIndexSetterPatched
  simp only [nativeTabIndexSetter, nativeTabIndexGetter, nativeHasTabindexAttr,
    handleFocusIn, handleFocus, ignoreFocusIn, ignoreFocus]
  repeat' split
  all_goals rfl

/-- C8: On a host element whose shadow root delegates focus, running the
patched `tabIndex` setter with `-1` and then with `0` (no intervening
attribute removal) ends with exactly the focus-delegating listener
(`handleFocus`) registered and the skip-navigation listener
(`handleFocusIn`) unregistered, from any initial attribute and listener
state; and the patched setter is idempotent for repeated identical
values — a second assignment of the same value leaves the element
(listeners included) exactly as the first left it. -/
theorem tabIndexSetterPatched_round_trip_and_idempotent :
    (∀ e : HostElm,
        (tabIndexSetterPatched true 0 (tabIndexSetterPatched true (-1) e)).focusListener
          = true ∧
        (tabIndexSetterPatched true 0 (tabIndexSetterPatched true (-1) e)).focusInListener
          = false) ∧
    (∀ (d : Bool) (v : Int) (e : HostElm),
        tabIndexSetterPatched d v (tabIndexSetterPatched d v e)
          = tabIndexSetterPatched d v e) := by
  constructor
  · intro e
    have ha := tabIndexSetterPatched_attr true (-1) e
    generalize hg : tabIndexSetterPatched true (-1) e = e1 at ha
    rcases e1 with ⟨attr, fi, f⟩
    simp only [HostElm.mk.injEq] at ha
    subst ha
    constructor <;>
      simp [tabIndexSetterPatched, nativeTabIndexSetter, nativeTabIndexGetter,
        nativeHasTabindexAttr, handleFocusIn, handleFocus, ignoreFocusIn,
        ignoreFocus]
  · intro d v e
    have ha := tabIndexSetterPatched_attr d v e
    generalize hg : tabIndexSetterPatched d v e = e1 at ha ⊢
    rcases e1 with ⟨attr, fi, f⟩
    simp only [HostElm.mk.injEq] at ha
    subst ha
    simp [tabIndexSetterPatched, nativeTabIndexSetter, nativeTabIndexGetter,
      nativeHasTabindexAttr, handleFocusIn, handleFocus, ignoreFocusIn,
      ignoreFocus]

/-- The action performed by the patched `blur()`: either the currently
active internal descendant is blurred (delegating redirect), or the
native `blur` is applied to the element itself. -/
inductive BlurAction where
  | blurDescendant (d : Nat)
  | nativeBlurSelf
deriving DecidableEq, Repr

/-- `blurPatched` (`src/unnamed/part_001` lines 118-128): when the
element delegates focus and `getActiveElement` finds an active internal
descendant, that descendant is blurred and the call returns; in every
other case — including a delegating host with no active descendant — the
call falls through to the native `blur` on the element itself.
`getActiveElement` (from `./focus`, not among the provided sources) is
supplied as the `activeElement` input. -/
def blurPatched (delegatesFocus : Bool) (activeElement : Option Nat) :
    BlurAction :=
  if delegatesFocus then
    match activeElement with
    | some d => .blurDescendant d
    | none => .nativeBlurSelf
  else .nativeBlurSelf

/-- C10: For a host whose shadow root delegates focus, if the
active-element lookup returns null the patched `blur()` falls through to
the native blur applied to the host itself; the delegating-descendant
redirect happens exactly when an active descendant exists. -/
theorem blurPatched_falls_through_without_active_descendant :
    blurPatched true none = .nativeBlurSelf ∧
    ∀ d : Nat, blurPatched true (some d) = .blurDescendant d := by
  exact ⟨rfl, fun d => rfl⟩

/-! ## Traversal filtering (`faux-shadow/element.ts`, C2/C4/C5)

`querySelectorPatched` (lines 524-578), `getFilteredArrayOfNodes`
(lines 580-632) and the patched `querySelectorAll` (lines 650-672).
The ownership helpers they consult (`getNodeOwner`, `getNodeKey`,
`getNodeOwnerKey`, `getNodeNearestOwnerKey`, `isHostElement`,
`isNodeShadowed`, `isGlobalPatchingSkipped`) are reads of per-node state;
they become fields of the context/candidate records. The slot-aware and
ownership match helpers from `./traverse` are not among the provided
sources and are modelled from the spec. -/

/-- The context element of a traversal call, as seen through the
ownership helpers: `isHost` = `isHostElement(this)`, `hasOwner` =
`getNodeOwner(this) !== null`, `hasNodeKey` = `getNodeKey(this)` truthy,
`isShadowed` = `isNodeShadowed(this)`, `ownerKey` = `getNodeOwnerKey`,
`nearestOwnerKey` = `getNodeNearestOwnerKey`, `isBody` =
`this instanceof HTMLBodyElement`, `globalPatchingSkipped` =
`isGlobalPatchingSkipped(this)`. -/
structure Ctx where
  isHost : Bool
  hasOwner : Bool
  hasNodeKey : Bool
  isShadowed : Bool
  ownerKey : Option Nat
  nearestOwnerKey : Option Nat
  isBody : Bool
  globalPatchingSkipped : Bool
deriving DecidableEq, Repr

/-- A candidate node from the unfiltered native result, as seen through
the ownership helpers relative to the fixed context of one call:
`ownerKey`/`nearestOwnerKey` are the node's own keys, `ownedByCtxOwner`
is `isNodeOwnedBy(owner, node)` for the context's owner, and
`slottedIntoCtx` is the slotted-ancestry match against the context. -/
structure Cand where
  ownerKey : Option Nat
  nearestOwnerKey : Option Nat
  ownedByCtxOwner : Bool
  slottedIntoCtx : Bool
deriving DecidableEq, Repr

/-- Modelled from the spec: `getAllMatches` (from `./traverse`, not among
the provided sources) filters the candidates to those owned by the
context's owner, preserving order. -/
def getAllMatches (l : List Cand) : List Cand :=
  l.filter (·.ownedByCtxOwner)

/-- Modelled from the spec: `getFirstMatch` returns the first candidate
owned by the context's owner, scanning in order. -/
def getFirstMatch (l : List Cand) : Option Cand :=
  l.find? (·.ownedByCtxOwner)

/-- Modelled from the spec: `getAllSlottedMatches` filters the candidates
to those whose slotted ancestry resolves into the context, preserving
order. -/
def getAllSlottedMatches (l : List Cand) : List Cand :=
  l.filter (·.slottedIntoCtx)

/-- Modelled from the spec: `getFirstSlottedMatch` returns the first
candidate whose slotted ancestry resolves into the context. -/
def getFirstSlottedMatch (l : List Cand) : Option Cand :=
  l.find? (·.slottedIntoCtx)

/-- `enum ShadowDomSemantic` (`element.ts` lines 68-71). -/
inductive ShadowDomSemantic where
  | Disabled
  | Enabled
deriving DecidableEq, Repr

/-- `getFilteredArrayOfNodes` (`element.ts` lines 580-632): host contexts
filter by slotted ancestry (custom element with its own key) or ownership,
or return empty when no owner resolves; shadowed contexts filter by
their direct owner key, or — with shadow-DOM semantics enabled — by their
nearest owner key, and otherwise copy the input; document-level contexts
filter to keyless candidates (unless global patching is skipped) when the
context is `document.body` or semantics are enabled, and copy the input
otherwise. -/
def getFilteredArrayOfNodes (ctx : Ctx) (unfilteredNodes : List Cand)
    (shadowDomSemantic : ShadowDomSemantic) : List Cand :=
  if ctx.isHost then
    if !ctx.hasOwner then []
    else if ctx.hasNodeKey then getAllSlottedMatches unfilteredNodes
    else getAllMatches unfilteredNodes
  else if ctx.isShadowed then
    match ctx.ownerKey with
    | some ownerKey =>
      unfilteredNodes.filter (fun elm => elm.nearestOwnerKey == some ownerKey)
    | none =>
      if shadowDomSemantic == .Enabled then
        unfilteredNodes.filter (fun elm => elm.nearestOwnerKey == ctx.nearestOwnerKey)
      else unfilteredNodes
  else
    if ctx.isBody || shadowDomSemantic == .Enabled then
      unfilteredNodes.filter (fun elm =>
        elm.ownerKey == none || ctx.globalPatchingSkipped)
    else unfilteredNodes

/-- `querySelectorPatched` (`element.ts` lines 524-578), applied to the
unfiltered native `querySelectorAll` result: the same branch structure as
`getFilteredArrayOfNodes` but returning the first match
(`getFirstSlottedMatch`/`getFirstMatch`/`ArrayFind`/`nodeList[0]`),
with the legacy mode selected by `ENABLE_NODE_LIST_PATCH` being off. -/
def querySelectorPatched (enableNodeListPatch : Bool) (ctx : Ctx)
    (nodeList : List Cand) : Option Cand :=
  if ctx.isHost then
    if !ctx.hasOwner then none
    else if ctx.hasNodeKey then getFirstSlottedMatch nodeList
    else getFirstMatch nodeList
  else if ctx.isShadowed then
    match ctx.ownerKey with
    | some ownerKey =>
      nodeList.find? (fun elm => elm.nearestOwnerKey == some ownerKey)
    | none =>
      if !enableNodeListPatch then nodeList.head?
      else nodeList.find? (fun elm => elm.nearestOwnerKey == ctx.nearestOwnerKey)
  else
    if !enableNodeListPatch && !ctx.isBody then nodeList.head?
    else
      nodeList.find? (fun elm => elm.ownerKey == none || ctx.globalPatchingSkipped)

/-- The patched `querySelectorAll` (`element.ts` lines 650-672), applied
to the unfiltered native result: `getFilteredArrayOfNodes` with the
shadow-DOM semantic selected by `ENABLE_NODE_LIST_PATCH`. -/
def querySelectorAllPatched (enableNodeListPatch : Bool) (ctx : Ctx)
    (nodeList : List Cand) : List Cand :=
  if !enableNodeListPatch then
    getFilteredArrayOfNodes ctx nodeList .Disabled
  else
    getFilteredArrayOfNodes ctx nodeList .Enabled

set_option maxRecDepth 4000 in
/-- C2: For every context, selector result list and setting of
`ENABLE_NODE_LIST_PATCH`, the patched `querySelector` equals the first
element of the patched `querySelectorAll`: it returns exactly the head of
the filtered collection, and in particular it is `null` precisely when
the collection is empty — even though the two are implemented by separate
first-match and filtering code paths. -/
theorem querySelector_consistent_with_querySelectorAll :
    ∀ (enableNodeListPatch : Bool) (ctx : Ctx) (nodeList : List Cand),
      querySelectorPatched enableNodeListPatch ctx nodeList
        = (querySelectorAllPatched enableNodeListPatch ctx nodeList).head? ∧
      (querySelectorPatched enableNodeListPatch ctx nodeList = none ↔
        querySelectorAllPatched enableNodeListPatch ctx nodeList = []) := by
  intro flag ctx nodeList
  have key : querySelectorPatched flag ctx nodeList
      = (querySelectorAllPatched flag ctx nodeList).head? := by
    rcases ctx with ⟨isHost, hasOwner, hasNodeKey, isShadowed, ownerKey,
      nearestOwnerKey, isBody, skip⟩
    cases flag <;> cases isHost <;> cases hasOwner <;> cases hasNodeKey <;>
      cases isShadowed <;> cases ownerKey <;> cases isBody <;>
      simp [querySelectorPatched, querySelectorAllPatched,
        getFilteredArrayOfNodes, getFirstMatch, getAllMatches,
        getFirstSlottedMatch, getAllSlottedMatches, List.filter_head?]
  refine ⟨key, ?_⟩
  rw [key, List.head?_eq_none_iff]

/-- C4: For every context, every unfiltered native candidate list and
every shadow-DOM-semantic mode, the output of the
`querySelectorAll`-family filtering is a sublist of the unfiltered input:
every output element occurs in the input and the relative order is
preserved, on every branch. -/
theorem getFilteredArrayOfNodes_sublist :
    ∀ (ctx : Ctx) (unfilteredNodes : List Cand) (mode : ShadowDomSemantic),
      (getFilteredArrayOfNodes ctx unfilteredNodes mode).Sublist unfilteredNodes := by
  intro ctx l mode
  unfold getFilteredArrayOfNodes getAllSlottedMatches getAllMatches
  repeat' split
  all_goals first
    | exact List.nil_sublist _
    | exact List.filter_sublist _
    | exact List.Sublist.refl _

/-- C5: Ownership filtering is idempotent: for every context, candidate
list and shadow-DOM-semantic mode, applying `getFilteredArrayOfNodes` a
second time with the same context and mode to its own output yields the
identical list. -/
theorem getFilteredArrayOfNodes_idempotent :
    ∀ (ctx : Ctx) (unfilteredNodes : List Cand) (mode : ShadowDomSemantic),
      getFilteredArrayOfNodes ctx
          (getFilteredArrayOfNodes ctx unfilteredNodes mode) mode
        = getFilteredArrayOfNodes ctx unfilteredNodes mode := by
  intro ctx l mode
  rcases ctx with ⟨isHost, hasOwner, hasNodeKey, isShadowed, ownerKey,
    nearestOwnerKey, isBody, skip⟩
  cases mode <;> cases isHost <;> cases hasOwner <;> cases hasNodeKey <;>
    cases isShadowed <;> cases ownerKey <;> cases isBody <;>
    simp [getFilteredArrayOfNodes, getAllSlottedMatches, getAllMatches,
      List.filter_filter]

end Lwc
